import Mathlib

/-!
Verification of the audio-analysis core of the mixbot repository.

The waveform is modelled as a list of rational amplitude samples together
with a natural-number sample rate, mirroring `src/audio_analyzer.py`.
Decibel-valued quantities live in `EReal` so that the source's `-np.inf`
sentinel for silent buffers is represented by `⊥`.
-/

/-- Mean of the squared samples, `np.mean(audio**2)` (division by a zero
length yields 0 in `ℚ`, used only under non-emptiness hypotheses). -/
def meanSq (l : List ℚ) : ℚ :=
  ((l.map fun x => x ^ 2).sum) / (l.length : ℚ)

/-- Peak level `np.max(np.abs(audio))`.  Folding `max` with seed 0 agrees with the
source's maximum on non-empty lists because every `|x|` is nonnegative. -/
def peak_linear (audio : List ℚ) : ℚ :=
  (audio.map fun x => |x|).foldr max 0

/-- Linear RMS `np.sqrt(np.mean(audio**2))` from `calculate_rms`. -/
noncomputable def rms_linear (audio : List ℚ) : ℝ :=
  Real.sqrt ((meanSq audio : ℚ) : ℝ)

/-- Decibel RMS `rms_db = 20 * np.log10(rms_linear) if rms_linear > 0 else
-np.inf` from `calculate_rms`. -/
noncomputable def rms_db (audio : List ℚ) : EReal :=
  if 0 < rms_linear audio then
    (((20 * Real.logb 10 (rms_linear audio) : ℝ)) : EReal)
  else ⊥

/-- Peak level in dB, `20 * np.log10(peak_level) if peak_level > 0 else
-np.inf`, from `detect_clipping`. -/
noncomputable def peak_db (audio : List ℚ) : EReal :=
  if 0 < peak_linear audio then
    (((20 * Real.logb 10 ((peak_linear audio : ℚ) : ℝ) : ℝ)) : EReal)
  else ⊥

/-- Flat-peak ratio `flat_peaks / len(audio)` where
`flat_peaks = np.sum(np.abs(audio) > 0.99)` (`detect_clipping`). -/
def flatPeakRatio (audio : List ℚ) : ℚ :=
  ((audio.countP fun x => decide ((99 / 100 : ℚ) < |x|)) : ℚ) / (audio.length : ℚ)

/-- The clipping verdict of `detect_clipping`: first set from
`peak_level_db > -0.1`, then overridden to true when
`flat_peak_ratio > 0.001`. -/
noncomputable def is_clipped (audio : List ℚ) : Prop :=
  if (1 / 1000 : ℚ) < flatPeakRatio audio then True
  else ((- 1 / 10 : ℝ) : EReal) < peak_db audio

/-- Window size `int(0.01 * sample_rate)` (10 ms windows). -/
def windowSize (sampleRate : ℕ) : ℕ := sampleRate / 100

/-- Hop size `window_size // 2` (5 ms hop). -/
def hopSize (sampleRate : ℕ) : ℕ := windowSize sampleRate / 2

/-- Number of iterations of `range(0, len(audio) - window_size, hop_size)`
for a positive hop: `⌈(len - window) / hop⌉` with truncating subtraction. -/
def numWindows (len window hop : ℕ) : ℕ := (len - window + hop - 1) / hop

/-- Linear threshold `10**(threshold_db / 20.0)` from `detect_silence`. -/
noncomputable def threshold_linear (thresholdDb : ℝ) : ℝ :=
  (10 : ℝ) ^ (thresholdDb / 20)

/-- RMS of the `i`-th analysis window,
`np.sqrt(np.mean(window**2))` over `audio[i*hop : i*hop + window]`. -/
noncomputable def windowRms (audio : List ℚ) (sampleRate : ℕ) (i : ℕ) : ℝ :=
  Real.sqrt ((meanSq ((audio.drop (i * hopSize sampleRate)).take
    (windowSize sampleRate)) : ℚ) : ℝ)

/-- Window start times paired with their silence flags
(`rms < threshold_linear`), in left-to-right order. -/
noncomputable def windowFlags (audio : List ℚ) (sampleRate : ℕ)
    (thresholdDb : ℝ) : List (ℚ × Bool) :=
  (List.range (numWindows audio.length (windowSize sampleRate)
      (hopSize sampleRate))).map fun i =>
    (((i * hopSize sampleRate : ℕ) : ℚ) / (sampleRate : ℚ),
      decide (windowRms audio sampleRate i < threshold_linear thresholdDb))

/-- The two-state {Sound, Silence} scan of `detect_silence`: on a
Sound-to-Silence transition record the start time, on a Silence-to-Sound
transition emit the period when it meets the minimum duration, and when the
stream ends while still in Silence close the final period at `endTime`
under the same rule. -/
def sweep (wl : List (ℚ × Bool)) (inSilence : Bool) (start endTime minDur : ℚ) :
    List (ℚ × ℚ) :=
  match wl, inSilence with
  | [], false => []
  | [], true => if minDur ≤ endTime - start then [(start, endTime)] else []
  | (t, b) :: rest, false =>
      if b then sweep rest true t endTime minDur
      else sweep rest false start endTime minDur
  | (t, b) :: rest, true =>
      if b then sweep rest true start endTime minDur
      else if minDur ≤ t - start then
        (start, t) :: sweep rest false start endTime minDur
      else sweep rest false start endTime minDur

/-- The function `detect_silence(audio, sample_rate, threshold_db,
min_silence_duration)`.  A zero hop (sample rate below 200 Hz) makes the source's `range` call raise
`ValueError`, modelled by `none`. -/
noncomputable def detect_silence (audio : List ℚ) (sampleRate : ℕ)
    (thresholdDb : ℝ) (minDur : ℚ) : Option (List (ℚ × ℚ)) :=
  if hopSize sampleRate = 0 then none
  else some (sweep (windowFlags audio sampleRate thresholdDb) false 0
    ((audio.length : ℚ) / (sampleRate : ℚ)) minDur)


/-- Outcome of `estimate_tempo`.  The external beat tracker
(`librosa.beat.beat_track`) is an opaque collaborator, modelled by its
outcome: `some t` when it returns tempo `t`, `none` when it raises.  The
source returns `(tempo, 0.8)` on success and prints a warning and returns
`(0.0, 0.0)` on failure; the Boolean records whether the warning was
printed. -/
noncomputable def estimate_tempo (beatTrack : Option ℝ) : (ℝ × ℝ) × Bool :=
  match beatTrack with
  | some t => ((t, 0.8), false)
  | none => ((0, 0), true)

/-- The structured content of the report printed by `analyze_audio`:
duration, silence summary, RMS, tempo (with the
`Tempo: Could not be estimated` marker governed by `tempo > 0`), and the
clipping verdict. -/
structure Report where
  duration : ℚ
  silencePeriods : List (ℚ × ℚ)
  silencePercentage : ℚ
  rmsDb : EReal
  tempoBpm : ℝ
  tempoCouldNotBeEstimated : Prop
  isClipped : Prop
  peakLevelDb : EReal

/-- The report `analyze_audio` assembles once `detect_silence` has
returned `periods`: `silence_percentage = (total_silence_time / duration)
* 100`, tempo printed as BPM when `tempo > 0` and as the explicit
`Could not be estimated` marker otherwise.  Applied by `analyze_audio`
only to non-empty buffers, where the duration divisor is nonzero. -/
noncomputable def buildReport (audio : List ℚ) (sampleRate : ℕ)
    (beatTrack : Option ℝ) (periods : List (ℚ × ℚ)) : Report :=
  { duration := (audio.length : ℚ) / (sampleRate : ℚ)
    silencePeriods := periods
    silencePercentage :=
      ((periods.map fun p => p.2 - p.1).sum /
        ((audio.length : ℚ) / (sampleRate : ℚ))) * 100
    rmsDb := rms_db audio
    tempoBpm := (estimate_tempo beatTrack).1.1
    tempoCouldNotBeEstimated := ¬ 0 < (estimate_tempo beatTrack).1.1
    isClipped := is_clipped audio
    peakLevelDb := peak_db audio }

/-- The body of `analyze_audio` with the waveform already loaded: silence
detection runs with the default threshold (−40 dB) and minimum duration
(0.1 s); then `silence_percentage = (total_silence_time / duration) * 100`
raises `ZeroDivisionError` on an empty buffer (duration 0), modelled by
`none`; otherwise every other metric is computed regardless of the beat
tracker's outcome. -/
noncomputable def analyze_audio (audio : List ℚ) (sampleRate : ℕ)
    (beatTrack : Option ℝ) : Option Report :=
  (detect_silence audio sampleRate (-40) (1 / 10)).bind fun periods =>
    if audio.length = 0 then none
    else some (buildReport audio sampleRate beatTrack periods)

/-- A 5-second all-zero buffer at 200 Hz, used as a concrete input. -/
def zeroBuffer : List ℚ := List.replicate 1000 0

/-- The report `analyze_audio` produces on `zeroBuffer`. -/
noncomputable def zeroReport : Report := buildReport zeroBuffer 200 none [(0, 5)]

/-- Genre metadata record of `analyze_genre_characteristics` in
`src/app.py` (the unused `metrics` parameter is omitted). -/
structure GenreInfo where
  genre : String
  characteristics : List String
  loudnessTarget : ℤ
  compressionStyle : String
  eqFocus : String

/-- Keywords of the Hip-Hop/Rap branch. -/
def hipHopWords : List String :=
  ["hip", "rap", "trap", "drill", "jay", "kendrick", "drake"]

/-- Keywords of the Electronic/Dance branch. -/
def electronicWords : List String :=
  ["edm", "electronic", "dance", "house", "techno", "trance"]

/-- Keywords of the Rock branch. -/
def rockWords : List String := ["rock", "guitar", "band", "live"]

/-- Keywords of the Pop branch. -/
def popWords : List String := ["pop", "mainstream", "radio"]

/-- Keywords of the Acoustic/Folk branch. -/
def acousticWords : List String := ["acoustic", "folk", "singer", "guitar"]

/-- Keyword matching `any(word in vibe_lower for word in words)` where
`vibe_lower = vibe.lower()`: case-insensitive substring matching. -/
def vibeMatches (vibe : String) (words : List String) : Prop :=
  ∃ w ∈ words, List.IsInfix w.toList (vibe.toList.map Char.toLower)

instance vibeMatchesDec (vibe : String) (words : List String) :
    Decidable (vibeMatches vibe words) :=
  List.decidableBEx _ words

/-- The `genre_info` update of the Hip-Hop/Rap keyword branch. -/
def hipHopInfo : GenreInfo :=
  ⟨"Hip-Hop/Rap", ["heavy bass", "punchy drums", "clear vocals", "wide stereo"],
    -10, "aggressive", "bass and presence"⟩

/-- The `genre_info` update of the Electronic/Dance keyword branch. -/
def electronicInfo : GenreInfo :=
  ⟨"Electronic/Dance",
    ["punchy kick", "wide stereo", "bright highs", "tight compression"],
    -8, "tight", "kick and highs"⟩

/-- The `genre_info` update of the Rock keyword branch. -/
def rockInfo : GenreInfo :=
  ⟨"Rock", ["guitar presence", "punchy drums", "vocal clarity",
    "natural dynamics"], -12, "moderate", "guitars and vocals"⟩

/-- The `genre_info` update of the Pop keyword branch. -/
def popInfo : GenreInfo :=
  ⟨"Pop", ["vocal forward", "bright mix", "wide stereo", "consistent levels"],
    -10, "consistent", "vocals and brightness"⟩

/-- The `genre_info` update of the Acoustic/Folk keyword branch. -/
def acousticInfo : GenreInfo :=
  ⟨"Acoustic/Folk", ["natural dynamics", "warm tones", "minimal processing",
    "space"], -16, "gentle", "warmth and clarity"⟩

/-- The default `genre_info` before any branch fires. -/
def unknownInfo : GenreInfo := ⟨"Unknown", [], -14, "moderate", "balanced"⟩

/-- The keyword cascade over the vibe string, in source order (Hip-Hop/Rap,
Electronic/Dance, Rock, Pop, Acoustic/Folk); `Unknown` when nothing
matches. -/
def genreFromVibe (vibe : String) : GenreInfo :=
  if vibeMatches vibe hipHopWords then hipHopInfo
  else if vibeMatches vibe electronicWords then electronicInfo
  else if vibeMatches vibe rockWords then rockInfo
  else if vibeMatches vibe popWords then popInfo
  else if vibeMatches vibe acousticWords then acousticInfo
  else unknownInfo

/-- The tempo-range fallback (`>140`, `>120`, `>90`, else). -/
def genreFromTempo (tempo : ℚ) : GenreInfo :=
  if 140 < tempo then
    ⟨"Fast Electronic/Dance", ["high energy", "tight compression",
      "bright mix"], -8, "tight", "kick and highs"⟩
  else if 120 < tempo then
    ⟨"Pop/Rock", ["moderate energy", "balanced mix", "clear vocals"],
      -12, "moderate", "balanced"⟩
  else if 90 < tempo then
    ⟨"Hip-Hop/Rap", ["punchy drums", "heavy bass", "clear vocals"],
      -10, "aggressive", "bass and presence"⟩
  else
    ⟨"Slow/Ambient", ["atmospheric", "gentle dynamics", "warm tones"],
      -16, "gentle", "warmth and space"⟩

/-- The function `analyze_genre_characteristics`: the vibe cascade, overridden by the
tempo buckets only when the vibe left the genre `Unknown`. -/
def analyze_genre_characteristics (tempo : ℚ) (vibe : String) : GenreInfo :=
  if (genreFromVibe vibe).genre = "Unknown" then genreFromTempo tempo
  else genreFromVibe vibe


lemma foldr_max_nonneg (l : List ℚ) : 0 ≤ l.foldr max 0 := by
  induction l with
  | nil => simp
  | cons a t ih => simpa using Or.inr ih

lemma le_foldr_max (l : List ℚ) (x : ℚ) (hx : x ∈ l) : x ≤ l.foldr max 0 := by
  induction l with
  | nil => simp at hx
  | cons a t ih =>
      rcases List.mem_cons.1 hx with h | h
      · simp [h]
      · simpa using Or.inr (ih h)

lemma foldr_max_le (l : List ℚ) (c : ℚ) (hc : 0 ≤ c) (h : ∀ x ∈ l, x ≤ c) :
    l.foldr max 0 ≤ c := by
  induction l with
  | nil => simpa using hc
  | cons a t ih =>
      simp only [List.foldr_cons, max_le_iff]
      exact ⟨h a (by simp), ih fun x hx => h x (by simp [hx])⟩

lemma peak_linear_nonneg (audio : List ℚ) : 0 ≤ peak_linear audio :=
  foldr_max_nonneg _

lemma abs_le_peak_linear (audio : List ℚ) (x : ℚ) (hx : x ∈ audio) :
    |x| ≤ peak_linear audio :=
  le_foldr_max _ _ (List.mem_map_of_mem _ hx)

lemma peak_linear_le (audio : List ℚ) (c : ℚ) (hc : 0 ≤ c)
    (h : ∀ x ∈ audio, |x| ≤ c) : peak_linear audio ≤ c := by
  refine foldr_max_le _ _ hc ?_
  intro y hy
  rcases List.mem_map.1 hy with ⟨x, hx, rfl⟩
  exact h x hx

lemma meanSq_nonneg (audio : List ℚ) : 0 ≤ meanSq audio := by
  unfold meanSq
  apply div_nonneg
  · apply List.sum_nonneg
    intro x hx
    rcases List.mem_map.1 hx with ⟨y, _, rfl⟩
    positivity
  · positivity

/-- The mean square never exceeds the square of the peak (non-empty case). -/
lemma meanSq_le_peak_sq (audio : List ℚ) (hne : audio ≠ []) :
    meanSq audio ≤ peak_linear audio ^ 2 := by
  have hlen : 0 < (audio.length : ℚ) := by
    have := List.length_pos.2 hne
    exact_mod_cast this
  have hsum : (audio.map fun x => x ^ 2).sum ≤
      (audio.map fun x => x ^ 2).length • (peak_linear audio ^ 2) := by
    apply List.sum_le_card_nsmul
    intro y hy
    rcases List.mem_map.1 hy with ⟨x, hx, rfl⟩
    have h1 : |x| ≤ peak_linear audio := abs_le_peak_linear audio x hx
    calc x ^ 2 = |x| ^ 2 := (sq_abs x).symm
    _ ≤ peak_linear audio ^ 2 := by
        apply pow_le_pow_left₀ (abs_nonneg x) h1
  rw [List.length_map] at hsum
  unfold meanSq
  rw [div_le_iff₀ hlen]
  calc (audio.map fun x => x ^ 2).sum
      ≤ audio.length • (peak_linear audio ^ 2) := hsum
  _ = peak_linear audio ^ 2 * (audio.length : ℚ) := by
      rw [nsmul_eq_mul]; ring

/-- C1: `detect_clipping` reports `is_clipped` exactly when
`peak_db > -0.1` or the fraction of samples with `|amplitude| > 0.99`
exceeds `0.001`; in particular more than 0.1% of samples at amplitude 1.0
forces the verdict regardless of the peak-level condition. -/
theorem clipping_policy (audio : List ℚ) (hne : audio ≠ []) :
    (is_clipped audio ↔
      (((- 1 / 10 : ℝ) : EReal) < peak_db audio ∨
        (1 / 1000 : ℚ) < flatPeakRatio audio)) ∧
    ((1 / 1000 : ℚ) <
        ((audio.countP fun x => decide (|x| = 1)) : ℚ) / (audio.length : ℚ) →
      is_clipped audio) := by
  constructor
  · unfold is_clipped
    by_cases hr : (1 / 1000 : ℚ) < flatPeakRatio audio
    · rw [if_pos hr]
      exact iff_of_true trivial (Or.inr hr)
    · rw [if_neg hr]
      exact (or_iff_left hr).symm
  · intro hfull
    have hcount : (audio.countP fun x => decide (|x| = 1)) ≤
        (audio.countP fun x => decide ((99 / 100 : ℚ) < |x|)) := by
      apply List.countP_mono_left
      intro x _ hx
      have h1 : |x| = 1 := by simpa using hx
      simp only [h1, decide_eq_true_eq]
      norm_num
    have hratio : ((audio.countP fun x => decide (|x| = 1)) : ℚ) /
        (audio.length : ℚ) ≤ flatPeakRatio audio := by
      unfold flatPeakRatio
      gcongr
    have hlt : (1 / 1000 : ℚ) < flatPeakRatio audio := lt_of_lt_of_le hfull hratio
    unfold is_clipped
    rw [if_pos hlt]
    trivial

theorem clipping_policy_witness :
    is_clipped [(1 : ℚ), 1, 1] :=
  (clipping_policy [1, 1, 1] (by simp)).2 (by norm_num [List.countP, List.countP.go])

/-- C5: whenever both decibel values are finite, the overall RMS level
returned by `calculate_rms` is at most the peak level returned by
`detect_clipping`. -/
theorem rms_le_peak (audio : List ℚ) (hne : audio ≠ [])
    (h1 : rms_db audio ≠ ⊥) (h2 : peak_db audio ≠ ⊥) :
    rms_db audio ≤ peak_db audio := by
  have hr : 0 < rms_linear audio := by
    by_contra hc
    exact h1 (by simp [rms_db, hc])
  have hp : 0 < peak_linear audio := by
    by_contra hc
    exact h2 (by simp [peak_db, hc])
  have hple : rms_linear audio ≤ ((peak_linear audio : ℚ) : ℝ) := by
    have h3 : ((meanSq audio : ℚ) : ℝ) ≤ ((peak_linear audio : ℚ) : ℝ) ^ 2 := by
      exact_mod_cast meanSq_le_peak_sq audio hne
    have h4 : (0 : ℝ) ≤ ((peak_linear audio : ℚ) : ℝ) := by exact_mod_cast hp.le
    calc rms_linear audio
        ≤ Real.sqrt (((peak_linear audio : ℚ) : ℝ) ^ 2) := Real.sqrt_le_sqrt h3
    _ = ((peak_linear audio : ℚ) : ℝ) := by
        rw [Real.sqrt_sq h4]
  have hpr : (0 : ℝ) < ((peak_linear audio : ℚ) : ℝ) := by exact_mod_cast hp
  rw [rms_db, peak_db, if_pos hr, if_pos hp]
  apply EReal.coe_le_coe_iff.2
  have hlog := Real.logb_le_logb_of_le (by norm_num : (1 : ℝ) < 10) hr hple
  linarith

theorem rms_le_peak_witness :
    rms_db [(1 : ℚ) / 2] ≤ peak_db [(1 : ℚ) / 2] := by
  have hrms : rms_db [(1 : ℚ) / 2] ≠ ⊥ := by
    rw [rms_db, if_pos]
    · exact EReal.coe_ne_bot _
    · apply Real.sqrt_pos.2
      norm_num [meanSq]
  have hpeak : peak_db [(1 : ℚ) / 2] ≠ ⊥ := by
    rw [peak_db, if_pos]
    · exact EReal.coe_ne_bot _
    · norm_num [peak_linear]
  exact rms_le_peak [(1 : ℚ) / 2] (by simp) hrms hpeak

/-- C6: for samples in the nominal range `[-1, 1]` both decibel metrics lie
in `(-∞, 0]` (`⊥` standing for `-∞`), and an all-zero buffer maps both to
`⊥`. -/
theorem db_nonpositive (audio : List ℚ) (hne : audio ≠ [])
    (hb : ∀ x ∈ audio, |x| ≤ 1) :
    rms_db audio ≤ 0 ∧ peak_db audio ≤ 0 ∧
      ((∀ x ∈ audio, x = 0) → rms_db audio = ⊥ ∧ peak_db audio = ⊥) := by
  have hpeak1 : peak_linear audio ≤ 1 := peak_linear_le audio 1 (by norm_num) hb
  refine ⟨?_, ?_, ?_⟩
  · rw [rms_db]
    split_ifs with hpos
    · have hm : meanSq audio ≤ 1 := by
        calc meanSq audio ≤ peak_linear audio ^ 2 := meanSq_le_peak_sq audio hne
        _ ≤ 1 := by nlinarith [peak_linear_nonneg audio]
      have hr1 : rms_linear audio ≤ 1 := by
        unfold rms_linear
        calc Real.sqrt ((meanSq audio : ℚ) : ℝ) ≤ Real.sqrt 1 := by
              apply Real.sqrt_le_sqrt
              exact_mod_cast hm
        _ = 1 := Real.sqrt_one
      rw [← EReal.coe_zero]
      apply EReal.coe_le_coe_iff.2
      have := Real.logb_nonpos (by norm_num : (1 : ℝ) < 10) hpos.le hr1
      linarith
    · exact bot_le
  · rw [peak_db]
    split_ifs with hpos
    · have hr1 : ((peak_linear audio : ℚ) : ℝ) ≤ 1 := by exact_mod_cast hpeak1
      have hr0 : (0 : ℝ) ≤ ((peak_linear audio : ℚ) : ℝ) := by
        exact_mod_cast peak_linear_nonneg audio
      rw [← EReal.coe_zero]
      apply EReal.coe_le_coe_iff.2
      have := Real.logb_nonpos (by norm_num : (1 : ℝ) < 10) hr0 hr1
      linarith
    · exact bot_le
  · intro hz
    have hm0 : meanSq audio = 0 := by
      unfold meanSq
      have : (audio.map fun x => x ^ 2).sum = 0 := by
        apply List.sum_eq_zero
        intro y hy
        rcases List.mem_map.1 hy with ⟨x, hx, rfl⟩
        rw [hz x hx]
        ring
      rw [this]
      simp
    have hp0 : peak_linear audio = 0 := by
      apply le_antisymm
      · apply peak_linear_le audio 0 le_rfl
        intro x hx
        rw [hz x hx]
        simp
      · exact peak_linear_nonneg audio
    constructor
    · rw [rms_db, if_neg]
      rw [rms_linear, hm0]
      simp
    · rw [peak_db, if_neg]
      rw [hp0]
      simp

theorem db_nonpositive_witness :
    rms_db [(1 : ℚ) / 2] ≤ 0 ∧ peak_db [(1 : ℚ) / 2] ≤ 0 ∧
      ((∀ x ∈ [(1 : ℚ) / 2], x = 0) →
        rms_db [(1 : ℚ) / 2] = ⊥ ∧ peak_db [(1 : ℚ) / 2] = ⊥) :=
  db_nonpositive [(1 : ℚ) / 2] (by simp) (by
    intro x hx
    simp only [List.mem_singleton] at hx
    subst hx
    rw [abs_of_nonneg (by norm_num)]
    norm_num)
/-- Every period the scan emits lasts at least the minimum duration. -/
lemma sweep_min_duration (wl : List (ℚ × Bool)) (inSilence : Bool)
    (start endTime minDur : ℚ) (p : ℚ × ℚ)
    (hp : p ∈ sweep wl inSilence start endTime minDur) :
    minDur ≤ p.2 - p.1 := by
  induction wl generalizing inSilence start with
  | nil =>
      cases inSilence with
      | false => simp [sweep] at hp
      | true =>
          rw [sweep] at hp
          split_ifs at hp with hd
          · rcases List.mem_singleton.1 hp with rfl
            simpa using hd
          · simp at hp
  | cons head rest ih =>
      obtain ⟨t, b⟩ := head
      cases inSilence with
      | false =>
          rw [sweep] at hp
          split_ifs at hp
          · exact ih true t hp
          · exact ih false start hp
      | true =>
          rw [sweep] at hp
          split_ifs at hp with hb hd
          · exact ih true start hp
          · rcases List.mem_cons.1 hp with rfl | hp'
            · simpa using hd
            · exact ih false start hp'
          · exact ih false start hp

/-- Structural invariant of the scan: with strictly increasing window times
bounded by `endTime` and a lower bound `lb`, the emitted periods are
pairwise separated, start no earlier than `lb`, satisfy `start < end` and
end no later than `endTime`. -/
lemma sweep_invariant (wl : List (ℚ × Bool)) (inSilence : Bool)
    (start endTime minDur lb : ℚ)
    (hsort : wl.Pairwise fun a b => a.1 < b.1)
    (hlt : ∀ x ∈ wl, x.1 < endTime)
    (hlb : ∀ x ∈ wl, lb ≤ x.1)
    (hs : inSilence = true →
      lb ≤ start ∧ (∀ x ∈ wl, start < x.1) ∧ start < endTime) :
    (sweep wl inSilence start endTime minDur).Pairwise
        (fun p q => p.2 ≤ q.1) ∧
      ∀ p ∈ sweep wl inSilence start endTime minDur,
        lb ≤ p.1 ∧ p.1 < p.2 ∧ p.2 ≤ endTime := by
  induction wl generalizing inSilence start lb with
  | nil =>
      cases inSilence with
      | false => simp [sweep]
      | true =>
          rw [sweep]
          obtain ⟨hls, -, hse⟩ := hs rfl
          split_ifs
          · refine ⟨List.pairwise_singleton _ _, ?_⟩
            intro p hp
            rcases List.mem_singleton.1 hp with rfl
            exact ⟨hls, hse, le_rfl⟩
          · simp
  | cons head rest ih =>
      obtain ⟨t, b⟩ := head
      have hsort' : rest.Pairwise fun a b => a.1 < b.1 :=
        (List.pairwise_cons.1 hsort).2
      have htrest : ∀ x ∈ rest, t < x.1 := fun x hx =>
        (List.pairwise_cons.1 hsort).1 x hx
      have hlt' : ∀ x ∈ rest, x.1 < endTime := fun x hx =>
        hlt x (List.mem_cons_of_mem _ hx)
      have hlb' : ∀ x ∈ rest, lb ≤ x.1 := fun x hx =>
        hlb x (List.mem_cons_of_mem _ hx)
      have htend : t < endTime := hlt (t, b) (List.mem_cons_self _ _)
      have htlb : lb ≤ t := hlb (t, b) (List.mem_cons_self _ _)
      cases inSilence with
      | false =>
          rw [sweep]
          split_ifs with hb
          · exact ih true t lb hsort' hlt' hlb'
              fun _ => ⟨htlb, htrest, htend⟩
          · exact ih false start lb hsort' hlt' hlb' (by simp)
      | true =>
          obtain ⟨hls, hswl, hse⟩ := hs rfl
          have hst : start < t := hswl (t, b) (List.mem_cons_self _ _)
          rw [sweep]
          split_ifs with hb hd
          · refine ih true start lb hsort' hlt' hlb' fun _ => ⟨hls, ?_, hse⟩
            intro x hx
            exact lt_trans hst (htrest x hx)
          · have hrec := ih false start t hsort' hlt'
              (fun x hx => le_of_lt (htrest x hx)) (by simp)
            refine ⟨?_, ?_⟩
            · rw [List.pairwise_cons]
              refine ⟨?_, hrec.1⟩
              intro q hq
              exact le_trans le_rfl ((hrec.2 q hq).1)
            · intro p hp
              rcases List.mem_cons.1 hp with rfl | hp'
              · exact ⟨hls, hst, htend.le⟩
              · obtain ⟨h1, h2, h3⟩ := hrec.2 p hp'
                exact ⟨le_trans htlb h1, h2, h3⟩
          · exact ih false start lb hsort' hlt' hlb' (by simp)

/-- Counted window indices really index iterations of the source's `range`
loop: `i < numWindows` forces `i * hop < len - window`. -/
lemma numWindows_spec (len window hop i : ℕ) (hhop : 0 < hop)
    (hi : i < numWindows len window hop) : i * hop < len - window := by
  unfold numWindows at hi
  have h1 : i + 1 ≤ (len - window + hop - 1) / hop := hi
  have h2 : (i + 1) * hop ≤ len - window + hop - 1 :=
    (Nat.le_div_iff_mul_le hhop).1 h1
  rw [add_mul, one_mul] at h2
  omega

/-- The window times of `windowFlags` are strictly increasing. -/
lemma windowFlags_sorted (audio : List ℚ) (sampleRate : ℕ)
    (thresholdDb : ℝ) (hsr : 0 < sampleRate) (hhop : 0 < hopSize sampleRate) :
    (windowFlags audio sampleRate thresholdDb).Pairwise
      fun a b => a.1 < b.1 := by
  unfold windowFlags
  rw [List.pairwise_map]
  apply List.Pairwise.imp_of_mem ?_ (List.pairwise_lt_range _)
  intro i j _ _ hij
  have hsrq : (0 : ℚ) < (sampleRate : ℚ) := by exact_mod_cast hsr
  apply (div_lt_div_iff_of_pos_right hsrq).2
  have : i * hopSize sampleRate < j * hopSize sampleRate :=
    Nat.mul_lt_mul_of_lt_of_le hij le_rfl hhop
  exact_mod_cast this

/-- Each window time of `windowFlags` is strictly below the total duration. -/
lemma windowFlags_time_lt (audio : List ℚ) (sampleRate : ℕ) (thresholdDb : ℝ)
    (hsr : 0 < sampleRate) (hhop : 0 < hopSize sampleRate)
    (x : ℚ × Bool) (hx : x ∈ windowFlags audio sampleRate thresholdDb) :
    x.1 < (audio.length : ℚ) / (sampleRate : ℚ) := by
  unfold windowFlags at hx
  rcases List.mem_map.1 hx with ⟨i, hi, rfl⟩
  rw [List.mem_range] at hi
  have h1 := numWindows_spec audio.length (windowSize sampleRate)
    (hopSize sampleRate) i hhop hi
  have h2 : i * hopSize sampleRate < audio.length := by omega
  have hsrq : (0 : ℚ) < (sampleRate : ℚ) := by exact_mod_cast hsr
  apply (div_lt_div_iff_of_pos_right hsrq).2
  exact_mod_cast h2

/-- Each window time of `windowFlags` is nonnegative. -/
lemma windowFlags_time_nonneg (audio : List ℚ) (sampleRate : ℕ)
    (thresholdDb : ℝ) (x : ℚ × Bool)
    (hx : x ∈ windowFlags audio sampleRate thresholdDb) : 0 ≤ x.1 := by
  unfold windowFlags at hx
  rcases List.mem_map.1 hx with ⟨i, _, rfl⟩
  positivity

/-- A positive hop forces a sample rate of at least 200 Hz. -/
lemma sampleRate_pos_of_hop (sampleRate : ℕ) (hhop : 0 < hopSize sampleRate) :
    0 < sampleRate := by
  unfold hopSize windowSize at hhop
  omega

/-- C2: `detect_silence` never emits a period shorter than
`min_silence_duration`; sub-minimum silent stretches (including a final one
running to the end of the stream) are dropped, never merged. -/
theorem silence_min_duration (audio : List ℚ) (sampleRate : ℕ)
    (thresholdDb : ℝ) (minDur : ℚ) (periods : List (ℚ × ℚ))
    (hsome : detect_silence audio sampleRate thresholdDb minDur = some periods)
    (p : ℚ × ℚ) (hmem : p ∈ periods) : minDur ≤ p.2 - p.1 := by
  unfold detect_silence at hsome
  split_ifs at hsome with hh
  injection hsome with hsome
  exact sweep_min_duration _ _ _ _ _ p (hsome ▸ hmem)

/-- C3: the silence periods are chronologically ordered and non-overlapping,
each satisfies `start < end`, and each lies within `[0, duration]` where
`duration = len(audio) / sample_rate`. -/
theorem silence_periods_ordered (audio : List ℚ) (sampleRate : ℕ)
    (thresholdDb : ℝ) (minDur : ℚ) (periods : List (ℚ × ℚ))
    (hsome : detect_silence audio sampleRate thresholdDb minDur = some periods) :
    periods.Pairwise (fun p q => p.2 ≤ q.1) ∧
      ∀ p ∈ periods, 0 ≤ p.1 ∧ p.1 < p.2 ∧
        p.2 ≤ (audio.length : ℚ) / (sampleRate : ℚ) := by
  unfold detect_silence at hsome
  split_ifs at hsome with hh
  have hhop : 0 < hopSize sampleRate := Nat.pos_of_ne_zero hh
  have hsr : 0 < sampleRate := sampleRate_pos_of_hop sampleRate hhop
  injection hsome with hsome
  subst hsome
  exact sweep_invariant _ false 0 _ minDur 0
    (windowFlags_sorted audio sampleRate thresholdDb hsr hhop)
    (windowFlags_time_lt audio sampleRate thresholdDb hsr hhop)
    (windowFlags_time_nonneg audio sampleRate thresholdDb)
    (by simp)

/-- Once in Silence with every remaining window silent, the scan closes a
single period at the end of stream, subject to the minimum duration. -/
lemma sweep_all_true (ts : List ℚ) (start endTime minDur : ℚ) :
    sweep (ts.map fun t => (t, true)) true start endTime minDur =
      if minDur ≤ endTime - start then [(start, endTime)] else [] := by
  induction ts with
  | nil => rfl
  | cons a tl ih => simp [sweep, ih]

/-- Every analysis window of an all-zero buffer is classified silent. -/
lemma windowFlags_replicate_zero (n sampleRate : ℕ) (thresholdDb : ℝ) :
    windowFlags (List.replicate n (0 : ℚ)) sampleRate thresholdDb =
      (List.range (numWindows n (windowSize sampleRate)
          (hopSize sampleRate))).map
        fun i => (((i * hopSize sampleRate : ℕ) : ℚ) / (sampleRate : ℚ), true) := by
  unfold windowFlags
  rw [List.length_replicate]
  apply List.map_congr_left
  intro i _
  have hrms : windowRms (List.replicate n (0 : ℚ)) sampleRate i = 0 := by
    unfold windowRms
    rw [List.drop_replicate, List.take_replicate]
    have hms : meanSq (List.replicate (min (windowSize sampleRate)
        (n - i * hopSize sampleRate)) (0 : ℚ)) = 0 := by
      unfold meanSq
      rw [List.map_replicate]
      norm_num
    rw [hms]
    simp
  have hpos : 0 < threshold_linear thresholdDb := by
    unfold threshold_linear
    positivity
  rw [hrms]
  simp [hpos]

/-- On an all-zero buffer longer than one window, `detect_silence` reports
the single period from time 0 to the full duration. -/
lemma detect_silence_replicate_zero (n sampleRate : ℕ) (thresholdDb : ℝ)
    (minDur : ℚ) (hhop : hopSize sampleRate ≠ 0)
    (hwin : windowSize sampleRate < n)
    (hd : minDur ≤ (n : ℚ) / (sampleRate : ℚ)) :
    detect_silence (List.replicate n 0) sampleRate thresholdDb minDur =
      some [(0, (n : ℚ) / (sampleRate : ℚ))] := by
  unfold detect_silence
  rw [if_neg hhop, windowFlags_replicate_zero]
  simp only [List.length_replicate]
  obtain ⟨k, hk⟩ : ∃ k, numWindows n (windowSize sampleRate)
      (hopSize sampleRate) = k + 1 := by
    have h1 : 1 ≤ numWindows n (windowSize sampleRate) (hopSize sampleRate) := by
      unfold numWindows
      rw [Nat.le_div_iff_mul_le (Nat.pos_of_ne_zero hhop), one_mul]
      omega
    exact ⟨_, (Nat.succ_pred_eq_of_pos h1).symm⟩
  rw [hk, List.range_succ_eq_map, List.map_cons, List.map_map]
  have hzero : ((((0 : ℕ) * hopSize sampleRate : ℕ) : ℚ) / (sampleRate : ℚ),
      true) = ((0 : ℚ), true) := by
    norm_num
  rw [hzero]
  have hcomp : ((fun i =>
        (((i * hopSize sampleRate : ℕ) : ℚ) / (sampleRate : ℚ), true)) ∘
        Nat.succ) =
      (fun t : ℚ => (t, true)) ∘
        (fun i : ℕ =>
          (((i + 1) * hopSize sampleRate : ℕ) : ℚ) / (sampleRate : ℚ)) := by
    funext i
    simp [Nat.succ_eq_add_one]
  rw [hcomp, ← List.map_map]
  show some (sweep (((0 : ℚ), true) :: _) false 0 _ minDur) = _
  rw [sweep]
  rw [if_pos rfl]
  rw [sweep_all_true]
  rw [sub_zero, if_pos hd]

/-- C4: on an all-zero 5-second buffer at any sample rate of at least
200 Hz (so the 10 ms window and 5 ms hop are non-degenerate), the default
parameters yield exactly one silence period starting at 0 and ending at a
time of at least 4.95 s (in fact exactly 5 s). -/
theorem silence_all_zero_five_seconds (sampleRate : ℕ)
    (hsr : 200 ≤ sampleRate) :
    ∃ e : ℚ, detect_silence (List.replicate (5 * sampleRate) 0) sampleRate
        (-40) (1 / 10) = some [(0, e)] ∧ (99 / 20 : ℚ) ≤ e := by
  have hhop : hopSize sampleRate ≠ 0 := by
    unfold hopSize windowSize
    omega
  have hwin : windowSize sampleRate < 5 * sampleRate := by
    unfold windowSize
    omega
  have hsr0 : ((sampleRate : ℚ)) ≠ 0 := by
    have : 0 < sampleRate := by omega
    exact_mod_cast this.ne'
  have hend : ((5 * sampleRate : ℕ) : ℚ) / (sampleRate : ℚ) = 5 := by
    push_cast
    field_simp
  have h := detect_silence_replicate_zero (5 * sampleRate) sampleRate (-40)
    (1 / 10) hhop hwin (by rw [hend]; norm_num)
  rw [hend] at h
  exact ⟨5, h, by norm_num⟩

theorem silence_all_zero_five_seconds_witness :
    ∃ e : ℚ, detect_silence (List.replicate (5 * 44100) 0) 44100
        (-40) (1 / 10) = some [(0, e)] ∧ (99 / 20 : ℚ) ≤ e :=
  silence_all_zero_five_seconds 44100 (by norm_num)

theorem silence_min_duration_witness :
    (1 / 10 : ℚ) ≤ ((0 : ℚ), (5 : ℚ)).2 - ((0 : ℚ), (5 : ℚ)).1 :=
  silence_min_duration (List.replicate (5 * 200) 0) 200 (-40) (1 / 10)
    [(0, 5)]
    (by
      have h := detect_silence_replicate_zero (5 * 200) 200 (-40) (1 / 10)
        (by decide) (by decide) (by norm_num)
      rw [h]
      norm_num)
    (0, 5) (List.mem_singleton.2 rfl)

theorem silence_periods_ordered_witness :
    [((0 : ℚ), (5 : ℚ))].Pairwise (fun p q => p.2 ≤ q.1) ∧
      ∀ p ∈ [((0 : ℚ), (5 : ℚ))], 0 ≤ p.1 ∧ p.1 < p.2 ∧
        p.2 ≤ (((List.replicate (5 * 200) (0 : ℚ)).length : ℚ) / (200 : ℚ)) :=
  silence_periods_ordered (List.replicate (5 * 200) 0) 200 (-40) (1 / 10)
    [(0, 5)]
    (by
      have h := detect_silence_replicate_zero (5 * 200) 200 (-40) (1 / 10)
        (by decide) (by decide) (by norm_num)
      rw [h]
      norm_num)

lemma detect_silence_zeroBuffer :
    detect_silence zeroBuffer 200 (-40) (1 / 10) = some [(0, 5)] := by
  have h := detect_silence_replicate_zero 1000 200 (-40) (1 / 10)
    (by decide) (by decide) (by norm_num)
  unfold zeroBuffer
  rw [h]
  norm_num

lemma analyze_zeroBuffer :
    analyze_audio zeroBuffer 200 none = some zeroReport := by
  unfold analyze_audio zeroReport
  rw [detect_silence_zeroBuffer]
  rw [Option.some_bind, if_neg (by
    unfold zeroBuffer
    rw [List.length_replicate]
    omega)]

/-- C7: tempo-estimation failure is non-fatal.  A raising beat tracker
makes `estimate_tempo` return `(0.0, 0.0)` with the warning printed, the
report shows the `could not be estimated` marker exactly when the tempo is
not positive, and every other metric of the report is still the one
computed by its extractor. -/
theorem tempo_failure_nonfatal (audio : List ℚ) (sampleRate : ℕ)
    (beatTrack : Option ℝ) (r : Report)
    (hr : analyze_audio audio sampleRate beatTrack = some r) :
    estimate_tempo none = ((0, 0), true) ∧
    (r.tempoCouldNotBeEstimated ↔ ¬ 0 < r.tempoBpm) ∧
    r.tempoBpm = (estimate_tempo beatTrack).1.1 ∧
    r.duration = (audio.length : ℚ) / (sampleRate : ℚ) ∧
    r.rmsDb = rms_db audio ∧
    r.peakLevelDb = peak_db audio ∧
    (r.isClipped ↔ is_clipped audio) ∧
    detect_silence audio sampleRate (-40) (1 / 10) = some r.silencePeriods := by
  unfold analyze_audio at hr
  rcases Option.bind_eq_some.1 hr with ⟨periods, hperiods, hif⟩
  split_ifs at hif
  injection hif with hbuild
  subst hbuild
  exact ⟨rfl, Iff.rfl, rfl, rfl, rfl, rfl, Iff.rfl, by rw [hperiods]; rfl⟩

theorem tempo_failure_nonfatal_witness :
    estimate_tempo none = ((0, 0), true) ∧
    (zeroReport.tempoCouldNotBeEstimated ↔ ¬ 0 < zeroReport.tempoBpm) ∧
    zeroReport.tempoBpm = (estimate_tempo none).1.1 ∧
    zeroReport.duration = ((zeroBuffer.length : ℚ) / (200 : ℚ)) ∧
    zeroReport.rmsDb = rms_db zeroBuffer ∧
    zeroReport.peakLevelDb = peak_db zeroBuffer ∧
    (zeroReport.isClipped ↔ is_clipped zeroBuffer) ∧
    detect_silence zeroBuffer 200 (-40) (1 / 10) =
      some zeroReport.silencePeriods :=
  tempo_failure_nonfatal zeroBuffer 200 none zeroReport analyze_zeroBuffer

/-- When the buffer is no longer than one analysis window, the source's
`range(0, len(audio) - window_size, hop_size)` is empty, so no window is
ever examined. -/
lemma detect_silence_short (audio : List ℚ) (sampleRate : ℕ)
    (thresholdDb : ℝ) (minDur : ℚ) (hhop : hopSize sampleRate ≠ 0)
    (hlen : audio.length ≤ windowSize sampleRate) :
    detect_silence audio sampleRate thresholdDb minDur = some [] := by
  have hflags : windowFlags audio sampleRate thresholdDb = [] := by
    unfold windowFlags
    have hnw : numWindows audio.length (windowSize sampleRate)
        (hopSize sampleRate) = 0 := by
      unfold numWindows
      have h0 : audio.length - windowSize sampleRate = 0 := by omega
      rw [h0]
      apply Nat.div_eq_of_lt
      omega
    rw [hnw]
    rfl
  unfold detect_silence
  rw [if_neg hhop, hflags]
  rfl

/-- C9: audio of at most one window (about 10 ms) produces no silence
periods at all — even when every sample is zero — so the report's silence
percentage is 0.  (A positive hop is required: below 200 Hz the source's
`range` call raises instead; a non-empty buffer is required for the report,
since on an empty one the source raises `ZeroDivisionError` at the
silence-percentage division.) -/
theorem short_audio_no_silence (audio : List ℚ) (sampleRate : ℕ)
    (thresholdDb : ℝ) (minDur : ℚ) (beatTrack : Option ℝ)
    (hhop : hopSize sampleRate ≠ 0)
    (hlen : audio.length ≤ windowSize sampleRate)
    (hne : audio ≠ []) :
    detect_silence audio sampleRate thresholdDb minDur = some [] ∧
    analyze_audio audio sampleRate beatTrack =
      some (buildReport audio sampleRate beatTrack []) ∧
    (buildReport audio sampleRate beatTrack []).silencePercentage = 0 := by
  refine ⟨detect_silence_short audio sampleRate thresholdDb minDur hhop hlen,
    ?_, ?_⟩
  · unfold analyze_audio
    rw [detect_silence_short audio sampleRate (-40) (1 / 10) hhop hlen]
    rw [Option.some_bind, if_neg fun h => hne (List.length_eq_zero.1 h)]
  · show (([] : List (ℚ × ℚ)).map fun p => p.2 - p.1).sum /
        ((audio.length : ℚ) / (sampleRate : ℚ)) * 100 = 0
    simp

theorem short_audio_no_silence_witness :
    detect_silence (List.replicate 2 (0 : ℚ)) 200 (-40) (1 / 10) = some [] ∧
    analyze_audio (List.replicate 2 (0 : ℚ)) 200 none =
      some (buildReport (List.replicate 2 (0 : ℚ)) 200 none []) ∧
    (buildReport (List.replicate 2 (0 : ℚ)) 200 none []).silencePercentage
      = 0 :=
  short_audio_no_silence (List.replicate 2 0) 200 (-40) (1 / 10) none
    (by decide) (by decide) (by decide)

/-- C8: a vibe containing "trap" (case-insensitively) selects Hip-Hop/Rap
at every tempo, and the empty vibe with tempo 150 falls back to the >140
tempo bucket. -/
theorem genre_selection (tempo : ℚ) (vibe : String)
    (htrap : List.IsInfix "trap".toList (vibe.toList.map Char.toLower)) :
    (analyze_genre_characteristics tempo vibe).genre = "Hip-Hop/Rap" ∧
    (analyze_genre_characteristics 150 "").genre = "Fast Electronic/Dance" := by
  constructor
  · have hm : vibeMatches vibe hipHopWords :=
      ⟨"trap", by simp [hipHopWords], htrap⟩
    have hv : genreFromVibe vibe = hipHopInfo := by
      unfold genreFromVibe
      rw [if_pos hm]
    unfold analyze_genre_characteristics
    rw [hv, if_neg (by decide)]
    rfl
  · decide

theorem genre_selection_witness :
    (analyze_genre_characteristics 60 "TrapSoul").genre = "Hip-Hop/Rap" ∧
    (analyze_genre_characteristics 150 "").genre = "Fast Electronic/Dance" :=
  genre_selection 60 "TrapSoul" (by decide)

/-- C10: a vibe containing "guitar" that matches no Hip-Hop/Rap or
Electronic/Dance keyword always selects Rock, never Acoustic/Folk — the
Rock branch is tested first and also lists "guitar", so the "guitar" entry
of the Acoustic/Folk keyword list is unreachable. -/
theorem guitar_selects_rock (tempo : ℚ) (vibe : String)
    (hguitar : List.IsInfix "guitar".toList (vibe.toList.map Char.toLower))
    (hnh : ¬ vibeMatches vibe hipHopWords)
    (hne : ¬ vibeMatches vibe electronicWords) :
    (analyze_genre_characteristics tempo vibe).genre = "Rock" ∧
    (analyze_genre_characteristics tempo vibe).genre ≠ "Acoustic/Folk" := by
  have hm : vibeMatches vibe rockWords := ⟨"guitar", by simp [rockWords], hguitar⟩
  have hv : genreFromVibe vibe = rockInfo := by
    unfold genreFromVibe
    rw [if_neg hnh, if_neg hne, if_pos hm]
  unfold analyze_genre_characteristics
  rw [hv]
  rw [if_neg (by decide)]
  exact ⟨rfl, by decide⟩

theorem guitar_selects_rock_witness :
    (analyze_genre_characteristics 100 "guitar").genre = "Rock" ∧
    (analyze_genre_characteristics 100 "guitar").genre ≠ "Acoustic/Folk" :=
  guitar_selects_rock 100 "guitar" (by decide) (by decide) (by decide)
